import Mathlib

/-!
Verification of the CDC echo handler in `src/firmware/src/cdc_app.c`.

The repository contains two USB CDC callbacks:

* `tud_cdc_line_state_cb(itf, dtr, rts)` — a no-op apart from two empty
  comment branches on `dtr`;
* `tud_cdc_rx_cb(itf)` — the echo handler: a connection guard
  (`tud_cdc_connected`), a drain loop reading up to 64 bytes at a time
  (`tud_cdc_n_available` / `tud_cdc_n_read`) and echoing each chunk back
  (`tud_cdc_n_write`), then a single `tud_cdc_n_write_flush`.

The external USB stack (TinyUSB) is not part of the repository; its
primitives are modelled from the spec's external-interface contract
(spec.md section 6): `bytes_available` reports the pending unread byte
count, `read(itf, buf, cap)` consumes up to `cap` bytes (writing them to
the front of `buf`), `write(itf, buf, len)` queues the first `len` bytes
of `buf`, and `flush` forces transmission.  The model also admits the
"transient read anomaly" of spec.md section 7: a read may return zero
bytes even though availability was reported positive; this is driven by
an explicit schedule of per-read anomaly flags.

The handler is embedded as a pure function producing the trace of
outbound calls it makes, together with the final stack state and the
final contents of the 64-byte transfer buffer.  The C `while` loop is
embedded with a fuel parameter for totality; `drainLoop_done_of_fuel`
shows that fuel `pending.length + 1` always completes the loop (the
`done` flag records that the loop exited through its own condition or a
`break`, not by fuel exhaustion), so the fuel is immaterial.
-/

/-- Outbound calls the handler makes into the USB stack, in order.
`availCheck n` records a `tud_cdc_n_available` query returning `n`;
`readEv bytes` a `tud_cdc_n_read` that returned `bytes`; `writeEv bytes`
a `tud_cdc_n_write` of exactly `bytes`; `flushEv` a
`tud_cdc_n_write_flush`. -/
inductive Ev where
  | availCheck (n : Nat)
  | readEv (bytes : List Nat)
  | writeEv (bytes : List Nat)
  | flushEv
deriving DecidableEq, Repr

/-- State of the external USB stack, as seen through the spec's
contract: whether a terminal is connected (DTR asserted), the pending
unread bytes for the interface, and the schedule of transient read
anomalies (the k-th flag, `false` when the list is exhausted, makes the
k-th read of the current event return zero bytes). -/
structure CdcStack where
  connected : Bool
  pending : List Nat
  anomalies : List Bool
deriving DecidableEq, Repr

/-- Modelled from the spec: `read(interface_id, buffer, capacity) ->
bytes_read` consumes up to `capacity` pending bytes (spec.md section 6),
except that a scheduled transient anomaly returns zero bytes while
consuming nothing (spec.md section 7).  Returns the bytes read, the
remaining pending bytes, and the rest of the anomaly schedule. -/
def stackRead (pending : List Nat) (anoms : List Bool) (cap : Nat) :
    List Nat × List Nat × List Bool :=
  match anoms with
  | [] => (pending.take cap, pending.drop cap, [])
  | flag :: rest =>
    if flag then ([], pending, rest) else (pending.take cap, pending.drop cap, rest)

/-- Result of the drain loop: the trace of outbound calls, the pending
bytes left in the stack, the final transfer-buffer contents, and whether
the loop exited through its own condition or a break (`done = true`)
rather than by fuel exhaustion. -/
structure DrainOut where
  trace : List Ev
  pending : List Nat
  buffer : List Nat
  done : Bool
deriving DecidableEq, Repr

/-- The drain loop of `tud_cdc_rx_cb` (cdc_app.c lines 59-68):
`while (tud_cdc_n_available(itf)) { count = tud_cdc_n_read(itf, buf,
sizeof(buf)); if (!count) break; tud_cdc_n_write(itf, buf, count); }`.
The read deposits its bytes at the front of the 64-byte transfer buffer
(the rest of the buffer keeps its previous contents), and the write
transmits the first `count` bytes of the buffer.  `fuel` is a totality
device; see `drainLoop_done_of_fuel`. -/
def drainLoop : Nat → List Nat → List Bool → List Nat → DrainOut
  | 0, pending, _, buffer => ⟨[], pending, buffer, false⟩
  | fuel + 1, pending, anoms, buffer =>
    if pending.length = 0 then
      ⟨[Ev.availCheck pending.length], pending, buffer, true⟩
    else
      let r := stackRead pending anoms 64
      let data := r.1
      let pending2 := r.2.1
      let anoms2 := r.2.2
      let buffer2 := data ++ buffer.drop data.length
      if data.length = 0 then
        ⟨[Ev.availCheck pending.length, Ev.readEv data], pending2, buffer2, true⟩
      else
        let rest := drainLoop fuel pending2 anoms2 buffer2
        ⟨Ev.availCheck pending.length :: Ev.readEv data ::
            Ev.writeEv (buffer2.take data.length) :: rest.trace,
          rest.pending, rest.buffer, rest.done⟩

/-- Result of one receive-handler invocation: the trace of outbound
calls, the stack state afterwards, and the final transfer-buffer
contents. -/
structure RxOut where
  trace : List Ev
  stack : CdcStack
  buffer : List Nat
deriving DecidableEq, Repr

/-- The receive handler `tud_cdc_rx_cb` (cdc_app.c lines 47-71): if
`tud_cdc_connected()` is false, return immediately (before the flush);
otherwise run the drain loop and then call `tud_cdc_n_write_flush`.
`buffer` is the initial (uninitialised) contents of the local 64-byte
`buf`; `itf` is passed through as in the source but the model tracks a
single interface. -/
def tud_cdc_rx_cb (itf : Nat) (s : CdcStack) (buffer : List Nat) : RxOut :=
  let _ := itf
  if !s.connected then
    ⟨[], s, buffer⟩
  else
    let r := drainLoop (s.pending.length + 1) s.pending s.anomalies buffer
    ⟨r.trace ++ [Ev.flushEv], { s with pending := r.pending }, r.buffer⟩

/-- The line-state handler `tud_cdc_line_state_cb` (cdc_app.c lines
31-44): both the `dtr` and `!dtr` branches are empty, `itf` and `rts`
are explicitly discarded; no outbound call is made.  The result is the
trace of outbound calls. -/
def tud_cdc_line_state_cb (itf : Nat) (dtr rts : Bool) : List Ev :=
  let _ := itf
  let _ := rts
  if dtr then [] else []

/-- Payloads of the write calls in a trace, in order. -/
def writesOf (tr : List Ev) : List (List Nat) :=
  tr.filterMap fun e =>
    match e with
    | Ev.writeEv b => some b
    | _ => none

/-- Payloads returned by the read calls in a trace, in order. -/
def readsOf (tr : List Ev) : List (List Nat) :=
  tr.filterMap fun e =>
    match e with
    | Ev.readEv b => some b
    | _ => none

/-- Number of flush calls in a trace. -/
def flushCount (tr : List Ev) : Nat :=
  (tr.filter fun e =>
    match e with
    | Ev.flushEv => true
    | _ => false).length

example :
    tud_cdc_rx_cb 0 ⟨true, [1, 2, 3], []⟩ (List.replicate 64 0) =
      ⟨[Ev.availCheck 3, Ev.readEv [1, 2, 3], Ev.writeEv [1, 2, 3],
          Ev.availCheck 0, Ev.flushEv],
        ⟨true, [], []⟩, [1, 2, 3] ++ List.replicate 61 0⟩ := by
  decide

example :
    (tud_cdc_rx_cb 0 ⟨false, [1, 2], []⟩ (List.replicate 64 0)).trace = [] := by
  decide

example :
    (tud_cdc_rx_cb 0 ⟨true, [5, 6], [true]⟩ (List.replicate 64 0)).trace =
      [Ev.availCheck 2, Ev.readEv [], Ev.flushEv] := by
  decide

/-! ### Unfolding lemmas for the drain loop -/

lemma drainLoop_nil (fuel : Nat) (anoms : List Bool) (buffer : List Nat) :
    drainLoop (fuel + 1) [] anoms buffer = ⟨[Ev.availCheck 0], [], buffer, true⟩ := by
  simp [drainLoop]

lemma drainLoop_anom (fuel : Nat) (pending : List Nat) (anoms : List Bool)
    (buffer : List Nat) (hp : pending ≠ []) (ha : anoms.headD false = true) :
    drainLoop (fuel + 1) pending anoms buffer =
      ⟨[Ev.availCheck pending.length, Ev.readEv []], pending, buffer, true⟩ := by
  have h0 : ¬ pending.length = 0 := by simpa [List.length_eq_zero] using hp
  cases anoms with
  | nil => simp [List.headD] at ha
  | cons flag rest =>
    have hflag : flag = true := ha
    subst hflag
    simp only [drainLoop, stackRead, if_true, if_neg h0, List.length_nil,
      if_pos rfl, List.drop_zero, List.nil_append]

lemma drainLoop_step (fuel : Nat) (pending : List Nat) (anoms : List Bool)
    (buffer : List Nat) (hp : pending ≠ []) (ha : anoms.headD false = false) :
    drainLoop (fuel + 1) pending anoms buffer =
      ⟨Ev.availCheck pending.length :: Ev.readEv (pending.take 64) ::
          Ev.writeEv (pending.take 64) ::
          (drainLoop fuel (pending.drop 64) anoms.tail
            (pending.take 64 ++ buffer.drop (pending.take 64).length)).trace,
        (drainLoop fuel (pending.drop 64) anoms.tail
          (pending.take 64 ++ buffer.drop (pending.take 64).length)).pending,
        (drainLoop fuel (pending.drop 64) anoms.tail
          (pending.take 64 ++ buffer.drop (pending.take 64).length)).buffer,
        (drainLoop fuel (pending.drop 64) anoms.tail
          (pending.take 64 ++ buffer.drop (pending.take 64).length)).done⟩ := by
  have h0 : ¬ pending.length = 0 := by simpa [List.length_eq_zero] using hp
  have hsr : stackRead pending anoms 64 =
      (pending.take 64, pending.drop 64, anoms.tail) := by
    cases anoms with
    | nil => rfl
    | cons flag rest =>
      have hflag : flag = false := ha
      subst hflag
      simp [stackRead]
  have hlen : ¬ (pending.take 64).length = 0 := by
    simp only [List.length_take]
    omega
  simp only [drainLoop, hsr, if_neg h0, if_neg hlen]
  rw [List.take_left]

/-! ### Trace accessor simp lemmas -/

@[simp] lemma writesOf_nil : writesOf [] = [] := rfl

@[simp] lemma writesOf_avail (n : Nat) (tr : List Ev) :
    writesOf (Ev.availCheck n :: tr) = writesOf tr := rfl

@[simp] lemma writesOf_read (b : List Nat) (tr : List Ev) :
    writesOf (Ev.readEv b :: tr) = writesOf tr := rfl

@[simp] lemma writesOf_write (b : List Nat) (tr : List Ev) :
    writesOf (Ev.writeEv b :: tr) = b :: writesOf tr := rfl

@[simp] lemma writesOf_flush (tr : List Ev) :
    writesOf (Ev.flushEv :: tr) = writesOf tr := rfl

@[simp] lemma writesOf_append (a b : List Ev) :
    writesOf (a ++ b) = writesOf a ++ writesOf b := by
  simp [writesOf, List.filterMap_append]

@[simp] lemma readsOf_nil : readsOf [] = [] := rfl

@[simp] lemma readsOf_avail (n : Nat) (tr : List Ev) :
    readsOf (Ev.availCheck n :: tr) = readsOf tr := rfl

@[simp] lemma readsOf_read (b : List Nat) (tr : List Ev) :
    readsOf (Ev.readEv b :: tr) = b :: readsOf tr := rfl

@[simp] lemma readsOf_write (b : List Nat) (tr : List Ev) :
    readsOf (Ev.writeEv b :: tr) = readsOf tr := rfl

@[simp] lemma readsOf_flush (tr : List Ev) :
    readsOf (Ev.flushEv :: tr) = readsOf tr := rfl

@[simp] lemma readsOf_append (a b : List Ev) :
    readsOf (a ++ b) = readsOf a ++ readsOf b := by
  simp [readsOf, List.filterMap_append]

@[simp] lemma flushCount_nil : flushCount [] = 0 := rfl

@[simp] lemma flushCount_avail (n : Nat) (tr : List Ev) :
    flushCount (Ev.availCheck n :: tr) = flushCount tr := rfl

@[simp] lemma flushCount_read (b : List Nat) (tr : List Ev) :
    flushCount (Ev.readEv b :: tr) = flushCount tr := rfl

@[simp] lemma flushCount_write (b : List Nat) (tr : List Ev) :
    flushCount (Ev.writeEv b :: tr) = flushCount tr := rfl

@[simp] lemma flushCount_flush (tr : List Ev) :
    flushCount (Ev.flushEv :: tr) = flushCount tr + 1 := rfl

@[simp] lemma flushCount_append (a b : List Ev) :
    flushCount (a ++ b) = flushCount a + flushCount b := by
  simp [flushCount, List.filter_append]

/-! ### Structural lemmas about drain-loop traces -/

lemma drainLoop_writes_eq_reads_filter (fuel : Nat) :
    ∀ (pending : List Nat) (anoms : List Bool) (buffer : List Nat),
      writesOf (drainLoop fuel pending anoms buffer).trace =
        (readsOf (drainLoop fuel pending anoms buffer).trace).filter
          (fun l => !l.isEmpty) := by
  induction fuel with
  | zero => intro p a b; simp [drainLoop]
  | succ fuel ih =>
    intro p a b
    by_cases hp : p = []
    · subst hp
      rw [drainLoop_nil]
      simp
    · by_cases ha : a.headD false = true
      · rw [drainLoop_anom fuel p a b hp ha]
        simp [writesOf, readsOf]
      · have ha2 : a.headD false = false := by simpa using ha
        rw [drainLoop_step fuel p a b hp ha2]
        have hne : (!(p.take 64).isEmpty) = true := by
          simp [List.isEmpty_iff, List.take_eq_nil_iff, hp]
        simp [List.filter_cons, hne, ih]

lemma drainLoop_write_bound (fuel : Nat) :
    ∀ (pending : List Nat) (anoms : List Bool) (buffer bytes : List Nat),
      Ev.writeEv bytes ∈ (drainLoop fuel pending anoms buffer).trace →
        bytes ≠ [] ∧ bytes.length ≤ 64 := by
  induction fuel with
  | zero => intro p a b bs h; simp [drainLoop] at h
  | succ fuel ih =>
    intro p a b bs h
    by_cases hp : p = []
    · subst hp
      rw [drainLoop_nil] at h
      simp at h
    · by_cases ha : a.headD false = true
      · rw [drainLoop_anom fuel p a b hp ha] at h
        simp at h
      · have ha2 : a.headD false = false := by simpa using ha
        rw [drainLoop_step fuel p a b hp ha2] at h
        simp only [List.mem_cons] at h
        rcases h with h | h | h | h
        · exact absurd h (by simp)
        · exact absurd h (by simp)
        · refine ⟨?_, ?_⟩
          · have : bs = p.take 64 := by simpa using h
            subst this
            simp [List.take_eq_nil_iff, hp]
          · have : bs = p.take 64 := by simpa using h
            subst this
            simp only [List.length_take]
            omega
        · exact ih _ _ _ _ h

lemma drainLoop_flushCount (fuel : Nat) :
    ∀ (pending : List Nat) (anoms : List Bool) (buffer : List Nat),
      flushCount (drainLoop fuel pending anoms buffer).trace = 0 := by
  induction fuel with
  | zero => intro p a b; simp [drainLoop]
  | succ fuel ih =>
    intro p a b
    by_cases hp : p = []
    · subst hp
      rw [drainLoop_nil]
      simp
    · by_cases ha : a.headD false = true
      · rw [drainLoop_anom fuel p a b hp ha]
        simp [flushCount]
      · have ha2 : a.headD false = false := by simpa using ha
        rw [drainLoop_step fuel p a b hp ha2]
        simp [ih]

lemma drainLoop_done_of_fuel (fuel : Nat) :
    ∀ (pending : List Nat) (anoms : List Bool) (buffer : List Nat),
      pending.length < fuel → (drainLoop fuel pending anoms buffer).done = true := by
  induction fuel with
  | zero => intro p a b h; omega
  | succ fuel ih =>
    intro p a b h
    by_cases hp : p = []
    · subst hp
      rw [drainLoop_nil]
    · by_cases ha : a.headD false = true
      · rw [drainLoop_anom fuel p a b hp ha]
      · have ha2 : a.headD false = false := by simpa using ha
        rw [drainLoop_step fuel p a b hp ha2]
        apply ih
        have hpos : 0 < p.length := List.length_pos.mpr hp
        simp only [List.length_drop]
        omega

lemma drainLoop_zero_read_last (fuel : Nat) :
    ∀ (pending : List Nat) (anoms : List Bool) (buffer : List Nat),
      Ev.readEv [] ∈ (drainLoop fuel pending anoms buffer).trace →
        ∃ pre, (drainLoop fuel pending anoms buffer).trace = pre ++ [Ev.readEv []] := by
  induction fuel with
  | zero => intro p a b h; simp [drainLoop] at h
  | succ fuel ih =>
    intro p a b h
    by_cases hp : p = []
    · subst hp
      rw [drainLoop_nil] at h
      simp at h
    · by_cases ha : a.headD false = true
      · rw [drainLoop_anom fuel p a b hp ha]
        exact ⟨[Ev.availCheck p.length], rfl⟩
      · have ha2 : a.headD false = false := by simpa using ha
        rw [drainLoop_step fuel p a b hp ha2] at h ⊢
        simp only [List.mem_cons] at h
        rcases h with h | h | h | h
        · exact absurd h (by simp)
        · have h2 : ([] : List Nat) = p.take 64 := by
            simpa only [Ev.readEv.injEq] using h
          exact absurd h2.symm (by simp [List.take_eq_nil_iff, hp])
        · exact absurd h (by simp)
        · obtain ⟨pre, hpre⟩ := ih _ _ _ h
          refine ⟨Ev.availCheck p.length :: Ev.readEv (p.take 64) ::
            Ev.writeEv (p.take 64) :: pre, ?_⟩
          simp only [List.cons_append]
          rw [hpre]

lemma drainLoop_trace_buffer_indep (fuel : Nat) :
    ∀ (pending : List Nat) (anoms : List Bool) (b1 b2 : List Nat),
      (drainLoop fuel pending anoms b1).trace = (drainLoop fuel pending anoms b2).trace := by
  induction fuel with
  | zero => intro p a b1 b2; simp [drainLoop]
  | succ fuel ih =>
    intro p a b1 b2
    by_cases hp : p = []
    · subst hp
      rw [drainLoop_nil, drainLoop_nil]
    · by_cases ha : a.headD false = true
      · rw [drainLoop_anom fuel p a b1 hp ha, drainLoop_anom fuel p a b2 hp ha]
      · have ha2 : a.headD false = false := by simpa using ha
        rw [drainLoop_step fuel p a b1 hp ha2, drainLoop_step fuel p a b2 hp ha2]
        dsimp only
        simp only [List.cons.injEq, eq_self_iff_true, true_and]
        exact ih _ _ _ _

/-- Chunk lengths produced by an anomaly-free drain of `n` pending
bytes with the given fuel: `min 64 n` per iteration until nothing is
left. -/
def lensFor : Nat → Nat → List Nat
  | 0, _ => []
  | fuel + 1, n => if n = 0 then [] else min 64 n :: lensFor fuel (n - 64)

lemma drainLoop_anomfree (fuel : Nat) :
    ∀ (pending buffer : List Nat),
      (writesOf (drainLoop fuel pending [] buffer).trace).map List.length =
          lensFor fuel pending.length ∧
        readsOf (drainLoop fuel pending [] buffer).trace =
          writesOf (drainLoop fuel pending [] buffer).trace := by
  induction fuel with
  | zero => intro p b; simp [drainLoop, lensFor]
  | succ fuel ih =>
    intro p b
    by_cases hp : p = []
    · subst hp
      rw [drainLoop_nil]
      simp [lensFor]
    · have h0 : ¬ p.length = 0 := by simpa [List.length_eq_zero] using hp
      rw [drainLoop_step fuel p [] b hp rfl]
      dsimp only [List.tail_nil]
      constructor
      · simp only [writesOf_avail, writesOf_read, writesOf_write, List.map_cons]
        rw [lensFor, if_neg h0]
        refine congrArg₂ _ ?_ ?_
        · simp [List.length_take]
        · rw [(ih _ _).1]
          simp [List.length_drop]
      · simp only [readsOf_avail, readsOf_read, readsOf_write,
          writesOf_avail, writesOf_read, writesOf_write]
        rw [(ih _ _).2]

/-- Flattening a list of lists ignores the empty lists. -/
lemma flatten_filter_nonempty {α : Type} (L : List (List α)) :
    (L.filter fun l => !l.isEmpty).flatten = L.flatten := by
  induction L with
  | nil => rfl
  | cons l t ih =>
    cases l with
    | nil => simpa [List.filter_cons] using ih
    | cons a l => simp [List.filter_cons, ih]

/-! ### Handler-level lemmas -/

lemma rx_trace_connected (itf : Nat) (s : CdcStack) (b : List Nat)
    (h : s.connected = true) :
    tud_cdc_rx_cb itf s b =
      ⟨(drainLoop (s.pending.length + 1) s.pending s.anomalies b).trace ++ [Ev.flushEv],
        { s with pending := (drainLoop (s.pending.length + 1) s.pending s.anomalies b).pending },
        (drainLoop (s.pending.length + 1) s.pending s.anomalies b).buffer⟩ := by
  simp [tud_cdc_rx_cb, h]

lemma rx_disconnected (itf : Nat) (s : CdcStack) (b : List Nat)
    (h : s.connected = false) :
    tud_cdc_rx_cb itf s b = ⟨[], s, b⟩ := by
  simp [tud_cdc_rx_cb, h]

/-! ### Claim theorems -/

/-- C1: Echo fidelity — for every invocation of the receive handler in
which the connection guard passes, the bytes passed to write,
concatenated in order across all drain iterations, are byte-for-byte
identical to the bytes returned by read, preserving order and length,
with no byte duplicated or dropped. -/
theorem echo_fidelity (itf : Nat) (s : CdcStack) (b : List Nat)
    (h : s.connected = true) :
    (writesOf (tud_cdc_rx_cb itf s b).trace).flatten =
      (readsOf (tud_cdc_rx_cb itf s b).trace).flatten := by
  rw [rx_trace_connected itf s b h]
  dsimp only
  simp only [writesOf_append, readsOf_append]
  rw [drainLoop_writes_eq_reads_filter]
  simp [flatten_filter_nonempty]

/-- Witness: echo fidelity at a concrete connected invocation with
three pending bytes. -/
theorem echo_fidelity_witness :
    (⟨true, [10, 20, 30], []⟩ : CdcStack).connected = true ∧
      (writesOf (tud_cdc_rx_cb 0 ⟨true, [10, 20, 30], []⟩
          (List.replicate 64 0)).trace).flatten =
        (readsOf (tud_cdc_rx_cb 0 ⟨true, [10, 20, 30], []⟩
          (List.replicate 64 0)).trace).flatten :=
  ⟨rfl, echo_fidelity 0 ⟨true, [10, 20, 30], []⟩ (List.replicate 64 0) rfl⟩

/-- C2 counterexample: an invocation of the receive handler with the
connection guard failing (is_connected false) performs zero flush
calls, not one — the handler returns before the flush (cdc_app.c lines
53-56), so the claim that flush is called exactly once even when
is_connected returns false is false. -/
theorem flush_invariant_cex :
    ¬ flushCount (tud_cdc_rx_cb 0 ⟨false, [42], []⟩ (List.replicate 64 0)).trace = 1 := by
  decide

/-- C2 (amended): every invocation of the receive handler in which the
connection guard passes results in exactly one flush call, regardless
of how many drain iterations occurred; when the guard short-circuits
(is_connected false), the handler returns immediately and performs no
flush call. -/
theorem flush_invariant_amended (itf : Nat) (s : CdcStack) (b : List Nat) :
    flushCount (tud_cdc_rx_cb itf s b).trace = if s.connected then 1 else 0 := by
  cases hc : s.connected with
  | false =>
    rw [rx_disconnected itf s b hc]
    simp
  | true =>
    rw [rx_trace_connected itf s b hc]
    dsimp only
    simp [drainLoop_flushCount]

/-- C3: Disconnected silence — for every invocation of the receive
handler in which is_connected returns false, the handler returns
immediately with an empty outbound-call trace (no write call and no
read call), leaving the stack state (in particular the pending buffered
bytes) and the transfer buffer untouched. -/
theorem disconnected_silence (itf : Nat) (s : CdcStack) (b : List Nat)
    (h : s.connected = false) :
    (tud_cdc_rx_cb itf s b).trace = [] ∧
      (tud_cdc_rx_cb itf s b).stack = s ∧
      (tud_cdc_rx_cb itf s b).buffer = b := by
  rw [rx_disconnected itf s b h]
  exact ⟨rfl, rfl, rfl⟩

/-- Witness: disconnected silence at a concrete disconnected invocation
with three pending bytes. -/
theorem disconnected_silence_witness :
    (⟨false, [1, 2, 3], []⟩ : CdcStack).connected = false ∧
      ((tud_cdc_rx_cb 0 ⟨false, [1, 2, 3], []⟩ (List.replicate 64 0)).trace = [] ∧
        (tud_cdc_rx_cb 0 ⟨false, [1, 2, 3], []⟩ (List.replicate 64 0)).stack =
          ⟨false, [1, 2, 3], []⟩ ∧
        (tud_cdc_rx_cb 0 ⟨false, [1, 2, 3], []⟩ (List.replicate 64 0)).buffer =
          List.replicate 64 0) :=
  ⟨rfl, disconnected_silence 0 ⟨false, [1, 2, 3], []⟩ (List.replicate 64 0) rfl⟩

/-- C4: Scenario C chunking — for an invocation of the receive handler
while connected with exactly 130 bytes available and no read anomaly
(each read returns min(capacity, remaining) bytes and decreases the
available count accordingly), the handler performs exactly three
read/drain iterations, issues exactly three write calls of lengths 64,
64 and 2 in that order, and exactly one flush call, which is the
trailing (last) outbound call. -/
theorem scenario_c_chunking (p b : List Nat) (h : p.length = 130) :
    (writesOf (tud_cdc_rx_cb 0 ⟨true, p, []⟩ b).trace).map List.length = [64, 64, 2] ∧
      (readsOf (tud_cdc_rx_cb 0 ⟨true, p, []⟩ b).trace).length = 3 ∧
      flushCount (tud_cdc_rx_cb 0 ⟨true, p, []⟩ b).trace = 1 ∧
      (tud_cdc_rx_cb 0 ⟨true, p, []⟩ b).trace.getLast? = some Ev.flushEv := by
  rw [rx_trace_connected 0 ⟨true, p, []⟩ b rfl]
  dsimp only
  have h1 := drainLoop_anomfree (p.length + 1) p b
  refine ⟨?_, ?_, ?_, ?_⟩
  · simp only [writesOf_append, writesOf_flush, writesOf_nil,
      List.append_nil]
    rw [h1.1, h]
    decide
  · simp only [readsOf_append, readsOf_flush, readsOf_nil, List.append_nil]
    rw [h1.2]
    have h2 : ((writesOf (drainLoop (p.length + 1) p [] b).trace).map
        List.length).length = 3 := by
      rw [h1.1, h]
      decide
    simpa using h2
  · simp [drainLoop_flushCount]
  · simp

/-- Witness: scenario C at the concrete 130-byte input 0,1,...,129. -/
theorem scenario_c_chunking_witness :
    (List.range 130).length = 130 ∧
      ((writesOf (tud_cdc_rx_cb 0 ⟨true, List.range 130, []⟩
            (List.replicate 64 0)).trace).map List.length = [64, 64, 2] ∧
        (readsOf (tud_cdc_rx_cb 0 ⟨true, List.range 130, []⟩
            (List.replicate 64 0)).trace).length = 3 ∧
        flushCount (tud_cdc_rx_cb 0 ⟨true, List.range 130, []⟩
            (List.replicate 64 0)).trace = 1 ∧
        (tud_cdc_rx_cb 0 ⟨true, List.range 130, []⟩
            (List.replicate 64 0)).trace.getLast? = some Ev.flushEv) :=
  ⟨by simp, scenario_c_chunking (List.range 130) (List.replicate 64 0) (by simp)⟩

/-- C5: Bounded chunking — for every invocation of the receive handler
and every stack behavior expressible in the model, no write call is
passed a length greater than 64 bytes, because each read is bounded by
the 64-byte transfer-buffer capacity. -/
theorem bounded_chunking (itf : Nat) (s : CdcStack) (b bytes : List Nat)
    (h : Ev.writeEv bytes ∈ (tud_cdc_rx_cb itf s b).trace) :
    bytes.length ≤ 64 := by
  cases hc : s.connected with
  | false =>
    rw [rx_disconnected itf s b hc] at h
    simp at h
  | true =>
    rw [rx_trace_connected itf s b hc] at h
    dsimp only at h
    simp only [List.mem_append] at h
    rcases h with h | h
    · exact (drainLoop_write_bound _ _ _ _ _ h).2
    · simp at h

/-- Witness: bounded chunking at a concrete invocation producing one
write of length 1. -/
theorem bounded_chunking_witness :
    Ev.writeEv [7] ∈ (tud_cdc_rx_cb 0 ⟨true, [7], []⟩ (List.replicate 64 0)).trace ∧
      ([7] : List Nat).length ≤ 64 :=
  ⟨by decide, bounded_chunking 0 ⟨true, [7], []⟩ (List.replicate 64 0) [7] (by decide)⟩

/-- C6: Zero-read termination — if, within a receive-handler
invocation, a read call returns 0 bytes (necessarily while the
availability query at loop entry reported non-zero, since the loop body
only runs then), the drain loop terminates immediately: the zero-byte
read is the last drain event, followed only by the single trailing
flush — in particular no write call is made for that iteration and the
availability count is not queried again within the same event. -/
theorem zero_read_termination (itf : Nat) (s : CdcStack) (b : List Nat)
    (h : Ev.readEv [] ∈ (tud_cdc_rx_cb itf s b).trace) :
    ∃ pre, (tud_cdc_rx_cb itf s b).trace = pre ++ [Ev.readEv [], Ev.flushEv] := by
  cases hc : s.connected with
  | false =>
    rw [rx_disconnected itf s b hc] at h
    simp at h
  | true =>
    rw [rx_trace_connected itf s b hc] at h ⊢
    dsimp only at h ⊢
    simp only [List.mem_append] at h
    rcases h with h | h
    · obtain ⟨pre, hpre⟩ := drainLoop_zero_read_last _ _ _ _ h
      refine ⟨pre, ?_⟩
      rw [hpre]
      simp
    · simp at h

/-- Witness: zero-read termination at a concrete invocation whose
single read is a scheduled anomaly. -/
theorem zero_read_termination_witness :
    Ev.readEv [] ∈ (tud_cdc_rx_cb 0 ⟨true, [5], [true]⟩ (List.replicate 64 0)).trace ∧
      ∃ pre, (tud_cdc_rx_cb 0 ⟨true, [5], [true]⟩ (List.replicate 64 0)).trace =
        pre ++ [Ev.readEv [], Ev.flushEv] :=
  ⟨by decide, zero_read_termination 0 ⟨true, [5], [true]⟩ (List.replicate 64 0) (by decide)⟩

/-- C7: Line-state handler is a total no-op — for every input triple
(interface, dtr, rts) the line-state handler returns without making any
outbound call to the stack (empty trace, so no data is transmitted),
and its behavior is identical whether rts is asserted or not. -/
theorem line_state_noop (itf : Nat) (dtr rts : Bool) :
    tud_cdc_line_state_cb itf dtr rts = [] ∧
      tud_cdc_line_state_cb itf dtr true = tud_cdc_line_state_cb itf dtr false := by
  constructor <;> cases dtr <;> rfl

/-- C8: Drain-loop termination — in the model (where every
non-anomalous read with positive return decreases the stack's pending
byte count by the number of bytes read, an anomalous zero-byte read
breaks the loop, and the stack does not add bytes mid-loop), the drain
loop of the receive handler terminates after finitely many iterations:
with fuel one greater than the pending byte count — the fuel the
handler supplies — the loop always exits through its own condition or a
break (`done = true`), never by fuel exhaustion, and control returns to
the caller. -/
theorem drain_terminates (pending : List Nat) (anoms : List Bool) (b : List Nat) :
    (drainLoop (pending.length + 1) pending anoms b).done = true :=
  drainLoop_done_of_fuel _ _ _ _ (Nat.lt_succ_self _)

/-- C9: No stale-buffer leakage — the length passed to each write is
exactly the count returned by that iteration's read (the non-empty
read payloads are precisely the write payloads, in order), so bytes of
the 64-byte transfer buffer not written by the current read are never
transmitted; equivalently, two runs differing only in the buffer's
initial contents produce identical outbound traces, hence identical
write calls. -/
theorem no_stale_buffer_leak (itf : Nat) (s : CdcStack) (b1 b2 : List Nat) :
    (tud_cdc_rx_cb itf s b1).trace = (tud_cdc_rx_cb itf s b2).trace ∧
      writesOf (tud_cdc_rx_cb itf s b1).trace =
        (readsOf (tud_cdc_rx_cb itf s b1).trace).filter (fun l => !l.isEmpty) := by
  constructor
  · cases hc : s.connected with
    | false => rw [rx_disconnected itf s b1 hc, rx_disconnected itf s b2 hc]
    | true =>
      rw [rx_trace_connected itf s b1 hc, rx_trace_connected itf s b2 hc]
      dsimp only
      rw [drainLoop_trace_buffer_indep (s.pending.length + 1) s.pending s.anomalies b1 b2]
  · cases hc : s.connected with
    | false =>
      rw [rx_disconnected itf s b1 hc]
      rfl
    | true =>
      rw [rx_trace_connected itf s b1 hc]
      dsimp only
      simp only [writesOf_append, readsOf_append, writesOf_flush, writesOf_nil,
        readsOf_flush, readsOf_nil, List.append_nil]
      exact drainLoop_writes_eq_reads_filter _ _ _ _

/-- C10: No zero-length writes — for every invocation of the receive
handler and every stack behavior expressible in the model, the handler
never issues a write call with an empty payload, because a read
returning 0 bytes breaks out of the loop before the write. -/
theorem no_zero_length_writes (itf : Nat) (s : CdcStack) (b bytes : List Nat)
    (h : Ev.writeEv bytes ∈ (tud_cdc_rx_cb itf s b).trace) :
    bytes ≠ [] := by
  cases hc : s.connected with
  | false =>
    rw [rx_disconnected itf s b hc] at h
    simp at h
  | true =>
    rw [rx_trace_connected itf s b hc] at h
    dsimp only at h
    simp only [List.mem_append] at h
    rcases h with h | h
    · exact (drainLoop_write_bound _ _ _ _ _ h).1
    · simp at h

/-- Witness: no zero-length writes at a concrete invocation producing
one write of two bytes. -/
theorem no_zero_length_writes_witness :
    Ev.writeEv [9, 9] ∈ (tud_cdc_rx_cb 0 ⟨true, [9, 9], []⟩ (List.replicate 64 0)).trace ∧
      ([9, 9] : List Nat) ≠ [] :=
  ⟨by decide, no_zero_length_writes 0 ⟨true, [9, 9], []⟩ (List.replicate 64 0) [9, 9] (by decide)⟩
